import Mathlib

/-!
Shallow embedding of `src/UserSettingsParser.hpp` (class `UserSettingsParser`).

Text is modelled as `List Char` (abbreviated `Str`).  The member
`std::unordered_map<std::string, std::string> settings_` is modelled as an
association list with unique keys; `mapFind` models `settings_.find`, and
`mapInsert` models the assignment `settings_[key] = value` (overwrite in
place when the key is present, append otherwise — iteration order of the
unordered map is arbitrary, which the association-list order represents).

The file system is a structure `FS`: `contents` maps a filename to the file
text when the file can be opened for reading, and `writable` says whether an
`std::ofstream` on that name opens successfully.  C++ exceptions become the
`Except Err` result; each throw site is tagged with the spec's error kind
(`std::runtime_error` messages in the source distinguish the same four
sites).  The `mutex_` member is a plain `std::mutex` and each public
operation holds it for its full duration, which is invisible to a
sequential embedding — except in `saveSettings`, which calls
`saveSettingsAs` while already holding the lock: the nested
`std::lock_guard` re-locks the non-recursive mutex, undefined behavior
that in practice self-deadlocks before the `std::ofstream` is opened.
`saveSettings` therefore returns an `Option`, with `none` for that
divergence: the call never returns and performs no write.
-/

abbrev Str := List Char

def lit (s : String) : Str := s.data

inductive Err where
  | ioError
  | notFoundError
  | conversionError
  | stateError
deriving DecidableEq, Repr

deriving instance DecidableEq for Except

structure SettingsState where
  settings : List (Str × Str)
  currentFilename : Str
deriving DecidableEq, Repr

/-- A fresh `UserSettingsParser` instance: `settings_` empty, `currentFilename_` empty. -/
def SettingsState.init : SettingsState := ⟨[], []⟩

structure FS where
  contents : Str → Option Str
  writable : Str → Bool

/-- Models `settings_.find(key)` on the unordered map. -/
def mapFind (m : List (Str × Str)) (k : Str) : Option Str :=
  match m with
  | [] => none
  | (k', v') :: rest => if k' = k then some v' else mapFind rest k

/-- Models `settings_[key] = value`: overwrite in place, else insert. -/
def mapInsert (m : List (Str × Str)) (k v : Str) : List (Str × Str) :=
  match m with
  | [] => [(k, v)]
  | (k', v') :: rest =>
    if k' = k then (k, v) :: rest else (k', v') :: mapInsert rest k v

/-- Models the `while (std::getline(file, line))` loop: split the file text at
each newline, the delimiter consumed; a final segment without a terminating
newline still yields a line, and the loop stops at end of input. -/
def splitLines : Str → List Str
  | [] => []
  | c :: cs =>
    if c = '\n' then [] :: splitLines cs
    else
      match splitLines cs with
      | [] => [[c]]
      | l :: ls => (c :: l) :: ls

/-- Split at the first `'='`, the delimiter consumed: models
`std::getline(iss, key, '=')`, which fails (returns `none` here) only when
it extracts no character at all, i.e. the line is empty; when the line has
no `'='` the whole line would become the key, but then the second
`std::getline(iss, value)` fails, so `parseLine` drops that case too. -/
def splitAtEq : Str → Option (Str × Str)
  | [] => none
  | c :: cs =>
    if c = '=' then some ([], cs)
    else
      match splitAtEq cs with
      | none => none
      | some (k, v) => some (c :: k, v)

/-- One iteration body of the load loop for a single `line`: the pair
`(key, value)` stored by `settings_[key] = value`, or `none` when either
`getline` call fails (empty line, line without `'='`, or nothing after the
first `'='`). -/
def parseLine (line : Str) : Option (Str × Str) :=
  match splitAtEq line with
  | none => none
  | some (k, v) => if v = [] then none else some (k, v)

/-- The load loop over all lines, starting from the current map `m`
(the source never clears `settings_` before the loop). -/
def loadLines (m : List (Str × Str)) : List Str → List (Str × Str)
  | [] => m
  | l :: ls =>
    match parseLine l with
    | none => loadLines m ls
    | some (k, v) => loadLines (mapInsert m k v) ls

/-- `UserSettingsParser::loadSettings`: throw `ioError` when the file cannot
be opened (state untouched); otherwise run the parse loop over the file's
lines into the existing map and record the filename. -/
def loadSettings (filename : Str) (s : SettingsState) (fs : FS) :
    Except Err Unit × SettingsState :=
  match fs.contents filename with
  | none => (.error .ioError, s)
  | some content =>
    (.ok (), { settings := loadLines s.settings (splitLines content),
               currentFilename := filename })

/-- `UserSettingsParser::getValue`: the stored string, or `notFoundError`. -/
def getValue (key : Str) (s : SettingsState) : Except Err Str × SettingsState :=
  (match mapFind s.settings key with
   | some v => .ok v
   | none => .error .notFoundError, s)

/-- Models `isspace` for the default C locale, as used by `std::stoi`. -/
def isSpaceChar (c : Char) : Bool :=
  c = ' ' || c = '\t' || c = '\n' || c = '\x0b' || c = '\x0c' || c = '\r'

def skipSpaces : Str → Str
  | [] => []
  | c :: cs => if isSpaceChar c then skipSpaces cs else c :: cs

/-- Whether the numeral is negated: a leading `'-'` after the whitespace. -/
def signOf (s : Str) : Bool :=
  match s with
  | c :: _ => c = '-'
  | [] => false

def dropSign (s : Str) : Str :=
  match s with
  | c :: rest => if c = '-' || c = '+' then rest else c :: rest
  | [] => []

/-- The longest run of decimal digits at the head of the string. -/
def takeDigits : Str → Str
  | [] => []
  | c :: cs => if c.isDigit then c :: takeDigits cs else []

def digitsVal (ds : Str) : Nat :=
  ds.foldl (fun a c => a * 10 + (c.toNat - 48)) 0

/-- The digit run `std::stoi` converts: after optional whitespace and an
optional single sign character. -/
def stoiDigits (v : Str) : Str :=
  takeDigits (dropSign (skipSpaces v))

/-- Models `std::stoi(v)` (base 10): skip whitespace, optional sign, longest
digit run.  `conversionError` stands for `std::invalid_argument` (no digit)
and for `std::out_of_range` (value outside `int`'s range); trailing
non-digit characters are ignored. -/
def stoi (v : Str) : Except Err Int :=
  let s1 := skipSpaces v
  let ds := takeDigits (dropSign s1)
  if ds = [] then .error .conversionError
  else
    let mag : Int := Int.ofNat (digitsVal ds)
    let n : Int := if signOf s1 then -mag else mag
    if n < -2147483648 ∨ 2147483647 < n then .error .conversionError
    else .ok n

/-- `UserSettingsParser::getValueAs<int>`: `std::stoi(getValue(key))`. -/
def getValueAsInt (key : Str) (s : SettingsState) :
    Except Err Int × SettingsState :=
  match getValue key s with
  | (Except.ok v, s') => (stoi v, s')
  | (Except.error e, s') => (Except.error e, s')

/-- `UserSettingsParser::getValueAs<bool>`: `value == "true" || value == "1"`. -/
def getValueAsBool (key : Str) (s : SettingsState) :
    Except Err Bool × SettingsState :=
  match getValue key s with
  | (Except.ok v, s') => (Except.ok (v == lit "true" || v == lit "1"), s')
  | (Except.error e, s') => (Except.error e, s')

/-- `UserSettingsParser::setValue`: `settings_[key] = value`; no throw. -/
def setValue (key value : Str) (s : SettingsState) : SettingsState :=
  { s with settings := mapInsert s.settings key value }

/-- `UserSettingsParser::setValueAs<bool>`: store `"true"` or `"false"`. -/
def setValueAsBool (key : Str) (b : Bool) (s : SettingsState) : SettingsState :=
  setValue key (if b then lit "true" else lit "false") s

/-- One `key=value` line plus newline, as written by `saveSettingsAs`. -/
def serialize (m : List (Str × Str)) : Str :=
  match m with
  | [] => []
  | kv :: rest => kv.1 ++ '=' :: (kv.2 ++ '\n' :: serialize rest)

/-- `UserSettingsParser::saveSettingsAs`: throw `ioError` when the
`std::ofstream` does not open; otherwise write every entry as a
`key=value` line.  `settings_` and `currentFilename_` are not assigned. -/
def saveSettingsAs (filename : Str) (s : SettingsState) (fs : FS) :
    Except Err Unit × SettingsState × FS :=
  if fs.writable filename then
    (.ok (), s,
     { fs with contents := fun n =>
         if n = filename then some (serialize s.settings) else fs.contents n })
  else (.error .ioError, s, fs)

/-- `UserSettingsParser::saveSettings`: throw `stateError` when
`currentFilename_.empty()` (this check runs before the nested call, with
state and file system untouched).  Otherwise the source calls
`saveSettingsAs(currentFilename_)` while already holding the non-recursive
`mutex_`; the nested `std::lock_guard` re-lock is undefined behavior and in
practice a self-deadlock before the `std::ofstream` is opened, so the call
never returns and no write occurs — modelled by `none`. -/
def saveSettings (s : SettingsState) (fs : FS) :
    Option (Except Err Unit × SettingsState × FS) :=
  if s.currentFilename = [] then some (.error .stateError, s, fs)
  else none

/-- The value of the last line of `lines` that parses to the key `k`,
if any line does: later lines take precedence. -/
def lastParsed (lines : List Str) (k : Str) : Option Str :=
  match lines with
  | [] => none
  | l :: ls =>
    match lastParsed ls k with
    | some v => some v
    | none =>
      match parseLine l with
      | some kv => if kv.1 = k then some kv.2 else none
      | none => none

/-- Spec-side notion of a valid base-10 integer numeral with value `n`,
within `int`'s range: an optional single sign followed by at least one
digit and nothing else. -/
def validIntString (v : Str) (n : Int) : Prop :=
  ∃ ds : Str, ds ≠ [] ∧ (∀ c ∈ ds, c.isDigit) ∧
    (v = ds ∧ n = Int.ofNat (digitsVal ds) ∨
     v = '+' :: ds ∧ n = Int.ofNat (digitsVal ds) ∨
     v = '-' :: ds ∧ n = -Int.ofNat (digitsVal ds)) ∧
    -2147483648 ≤ n ∧ n ≤ 2147483647

theorem mapFind_mapInsert (m : List (Str × Str)) (k v k' : Str) :
    mapFind (mapInsert m k v) k' = if k = k' then some v else mapFind m k' := by
  induction m with
  | nil => simp [mapInsert, mapFind]
  | cons kv rest ih =>
    obtain ⟨k₀, v₀⟩ := kv
    by_cases h0 : k₀ = k <;> by_cases h1 : k = k' <;>
      simp_all [mapInsert, mapFind]

theorem mapInsert_of_find_none (m : List (Str × Str)) (k v : Str)
    (h : mapFind m k = none) : mapInsert m k v = m ++ [(k, v)] := by
  induction m with
  | nil => simp [mapInsert]
  | cons kv rest ih =>
    obtain ⟨k₀, v₀⟩ := kv
    by_cases h0 : k₀ = k
    · simp [mapFind, h0] at h
    · simp only [mapFind, if_neg h0] at h
      simp [mapInsert, if_neg h0, ih h]

theorem mapFind_append (m m' : List (Str × Str)) (k : Str) :
    mapFind (m ++ m') k =
      match mapFind m k with
      | some v => some v
      | none => mapFind m' k := by
  induction m with
  | nil => simp [mapFind]
  | cons kv rest ih =>
    obtain ⟨k₀, v₀⟩ := kv
    by_cases h0 : k₀ = k <;> simp [mapFind, h0, ih]

theorem loadLines_append (m : List (Str × Str)) (ls ls' : List Str) :
    loadLines m (ls ++ ls') = loadLines (loadLines m ls) ls' := by
  induction ls generalizing m with
  | nil => simp [loadLines]
  | cons l rest ih =>
    simp only [List.cons_append]
    cases hp : parseLine l with
    | none => simp [loadLines, hp, ih]
    | some kv => simp [loadLines, hp, ih]

theorem mapFind_loadLines (lines : List Str) (m : List (Str × Str)) (k : Str) :
    mapFind (loadLines m lines) k =
      match lastParsed lines k with
      | some v => some v
      | none => mapFind m k := by
  induction lines generalizing m with
  | nil => simp [loadLines, lastParsed]
  | cons l ls ih =>
    simp only [loadLines, lastParsed]
    cases hp : parseLine l with
    | none =>
      simp only [ih]
      cases lastParsed ls k <;> simp
    | some kv =>
      obtain ⟨k', v⟩ := kv
      simp only [ih, mapFind_mapInsert]
      cases lastParsed ls k with
      | some w => simp
      | none => by_cases h : k' = k <;> simp [h]

theorem splitLines_append_newline (l rest : Str) (h : '\n' ∉ l) :
    splitLines (l ++ '\n' :: rest) = l :: splitLines rest := by
  induction l with
  | nil => simp [splitLines]
  | cons c cs ih =>
    have hc : c ≠ '\n' := fun hh => h (hh ▸ List.mem_cons_self c cs)
    have h' : '\n' ∉ cs := fun hh => h (List.mem_cons_of_mem c hh)
    simp [splitLines, hc, ih h']

theorem splitAtEq_append (k v : Str) (h : '=' ∉ k) :
    splitAtEq (k ++ '=' :: v) = some (k, v) := by
  induction k with
  | nil => simp [splitAtEq]
  | cons c cs ih =>
    have hc : c ≠ '=' := fun hh => h (hh ▸ List.mem_cons_self c cs)
    have h' : '=' ∉ cs := fun hh => h (List.mem_cons_of_mem c hh)
    simp [splitAtEq, hc, ih h']

theorem splitAtEq_of_no_eq (l : Str) (h : '=' ∉ l) : splitAtEq l = none := by
  induction l with
  | nil => rfl
  | cons c cs ih =>
    have hc : c ≠ '=' := fun hh => h (hh ▸ List.mem_cons_self c cs)
    have h' : '=' ∉ cs := fun hh => h (List.mem_cons_of_mem c hh)
    simp [splitAtEq, hc, ih h']

theorem parseLine_keyval (k v : Str) (hk : '=' ∉ k) (hv : v ≠ []) :
    parseLine (k ++ '=' :: v) = some (k, v) := by
  simp [parseLine, splitAtEq_append k v hk, hv]

theorem parseLine_no_eq (l : Str) (h : '=' ∉ l) : parseLine l = none := by
  simp [parseLine, splitAtEq_of_no_eq l h]

theorem parseLine_empty_value (k : Str) (hk : '=' ∉ k) :
    parseLine (k ++ ['=']) = none := by
  have h := splitAtEq_append k [] hk
  simp [parseLine, h]

theorem splitLines_serialize (M : List (Str × Str))
    (h : ∀ kv ∈ M, '\n' ∉ kv.1 ∧ '\n' ∉ kv.2) :
    splitLines (serialize M) = M.map (fun kv => kv.1 ++ '=' :: kv.2) := by
  induction M with
  | nil => rfl
  | cons kv rest ih =>
    obtain ⟨k, v⟩ := kv
    have hk : '\n' ∉ k := (h _ (List.mem_cons_self _ _)).1
    have hv : '\n' ∉ v := (h _ (List.mem_cons_self _ _)).2
    have hline : '\n' ∉ (k ++ '=' :: v) := by
      intro hm
      rcases List.mem_append.mp hm with h1 | h1
      · exact hk h1
      · rcases List.mem_cons.mp h1 with h2 | h2
        · exact absurd h2 (by decide)
        · exact hv h2
    have hser : serialize ((k, v) :: rest) =
        (k ++ '=' :: v) ++ '\n' :: serialize rest := by
      simp [serialize]
    rw [hser, splitLines_append_newline _ _ hline,
      ih (fun kv hkv => h kv (List.mem_cons_of_mem _ hkv))]
    rfl

theorem loadLines_pairs (pairs : List (Str × Str)) (m : List (Str × Str))
    (habs : ∀ kv ∈ pairs, mapFind m kv.1 = none)
    (hnd : (pairs.map Prod.fst).Nodup)
    (hk : ∀ kv ∈ pairs, '=' ∉ kv.1)
    (hv : ∀ kv ∈ pairs, kv.2 ≠ []) :
    loadLines m (pairs.map (fun kv => kv.1 ++ '=' :: kv.2)) = m ++ pairs := by
  induction pairs generalizing m with
  | nil => simp [loadLines]
  | cons kv rest ih =>
    obtain ⟨k, v⟩ := kv
    have hndc : (k :: rest.map Prod.fst).Nodup := by simpa using hnd
    have hknotin : k ∉ rest.map Prod.fst := (List.nodup_cons.mp hndc).1
    have hndrest : (rest.map Prod.fst).Nodup := (List.nodup_cons.mp hndc).2
    simp only [List.map_cons, loadLines,
      parseLine_keyval k v (hk _ (List.mem_cons_self _ _)) (hv _ (List.mem_cons_self _ _))]
    rw [mapInsert_of_find_none m k v (habs _ (List.mem_cons_self _ _))]
    have habs' : ∀ kv ∈ rest, mapFind (m ++ [(k, v)]) kv.1 = none := by
      intro kv hkv
      have hne : ¬ k = kv.1 := by
        intro he
        exact hknotin (he ▸ List.mem_map_of_mem Prod.fst hkv)
      rw [mapFind_append]
      simp [habs kv (List.mem_cons_of_mem _ hkv), mapFind, hne]
    rw [ih (m ++ [(k, v)]) habs' hndrest
      (fun kv hkv => hk kv (List.mem_cons_of_mem _ hkv))
      (fun kv hkv => hv kv (List.mem_cons_of_mem _ hkv))]
    simp

theorem isDigit_not_space (c : Char) (h : c.isDigit = true) :
    isSpaceChar c = false := by
  by_contra hc
  rw [Bool.not_eq_false] at hc
  simp only [isSpaceChar, Bool.or_eq_true, decide_eq_true_eq] at hc
  rcases hc with ((((h1 | h1) | h1) | h1) | h1) | h1 <;> subst h1 <;>
    exact absurd h (by decide)

theorem isDigit_ne_dash (c : Char) (h : c.isDigit = true) : c ≠ '-' := by
  intro h1; subst h1; exact absurd h (by decide)

theorem isDigit_ne_plus (c : Char) (h : c.isDigit = true) : c ≠ '+' := by
  intro h1; subst h1; exact absurd h (by decide)

theorem skipSpaces_head (c : Char) (cs : Str) (h : isSpaceChar c = false) :
    skipSpaces (c :: cs) = c :: cs := by
  simp [skipSpaces, h]

theorem takeDigits_of_all (ds : Str) (h : ∀ c ∈ ds, c.isDigit) :
    takeDigits ds = ds := by
  induction ds with
  | nil => rfl
  | cons c cs ih =>
    simp [takeDigits, h c (List.mem_cons_self _ _),
      ih (fun c hc => h c (List.mem_cons_of_mem _ hc))]

theorem stoi_of_valid (v : Str) (n : Int) (h : validIntString v n) :
    stoi v = Except.ok n := by
  rcases h with ⟨ds, hne, hdig, hcase, hlo, hhi⟩
  have hrange : ¬ (n < -2147483648 ∨ 2147483647 < n) := by omega
  rcases hcase with ⟨hveq, hneq⟩ | ⟨hveq, hneq⟩ | ⟨hveq, hneq⟩
  · obtain ⟨c, cs, rfl⟩ : ∃ c cs, ds = c :: cs := by
      cases ds with
      | nil => exact absurd rfl hne
      | cons c cs => exact ⟨c, cs, rfl⟩
    have hc : c.isDigit = true := hdig c (List.mem_cons_self _ _)
    subst hveq
    have h1 : skipSpaces (c :: cs) = c :: cs :=
      skipSpaces_head _ _ (isDigit_not_space c hc)
    have h2 : dropSign (c :: cs) = c :: cs := by
      simp [dropSign, isDigit_ne_dash c hc, isDigit_ne_plus c hc]
    have h3 : takeDigits (c :: cs) = c :: cs := takeDigits_of_all _ hdig
    have h4 : signOf (c :: cs) = false := by
      simp [signOf, isDigit_ne_dash c hc]
    simp only [stoi, h1, h2, h3, h4, if_false, Bool.false_eq_true, ite_false,
      ← hneq]
    rw [if_neg (by simp), if_neg hrange]
  · subst hveq
    have h1 : skipSpaces ('+' :: ds) = '+' :: ds :=
      skipSpaces_head _ _ (by decide)
    have h2 : dropSign ('+' :: ds) = ds := by simp [dropSign]
    have h3 : takeDigits ds = ds := takeDigits_of_all _ hdig
    have h4 : signOf ('+' :: ds) = false := by simp [signOf]
    simp only [stoi, h1, h2, h3, h4, Bool.false_eq_true, ite_false, ← hneq]
    rw [if_neg hne, if_neg hrange]
  · subst hveq
    have h1 : skipSpaces ('-' :: ds) = '-' :: ds :=
      skipSpaces_head _ _ (by decide)
    have h2 : dropSign ('-' :: ds) = ds := by simp [dropSign]
    have h3 : takeDigits ds = ds := takeDigits_of_all _ hdig
    have h4 : signOf ('-' :: ds) = true := by simp [signOf]
    simp only [stoi, h1, h2, h3, h4, ite_true, ← hneq]
    rw [if_neg hne, if_neg hrange]

theorem stoi_of_no_digits (v : Str) (h : stoiDigits v = []) :
    stoi v = Except.error Err.conversionError := by
  simp only [stoiDigits] at h
  simp [stoi, h]

/-- C1 counterexample: loading the file `"f"` whose content is `"a=2\n"` into a
store whose mapping holds the key `"x"` (a key that does not occur in the file)
succeeds, yet `"x"` is still mapped afterwards: `loadSettings` never clears
`settings_`, so the prior mapping is merged with the file's pairs, not
replaced. -/
theorem c1_counterexample :
    (loadSettings (lit "f") ⟨[(lit "x", lit "1")], []⟩
        ⟨fun n => if n = lit "f" then some (lit "a=2\n") else none,
         fun _ => true⟩).1 = Except.ok () ∧
    lastParsed (splitLines (lit "a=2\n")) (lit "x") = none ∧
    mapFind ((loadSettings (lit "f") ⟨[(lit "x", lit "1")], []⟩
        ⟨fun n => if n = lit "f" then some (lit "a=2\n") else none,
         fun _ => true⟩).2).settings (lit "x") = some (lit "1") := by
  exact ⟨rfl, rfl, rfl⟩

/-- C1 amended: after a successful `loadSettings(path)`, `currentFilename_`
equals `path` and the mapping is the prior mapping updated by the file's
parsed pairs: a key occurring in the file maps to the value of its last
occurrence, and a key present before the load and not occurring in the file
keeps its prior value (merge, not replacement). -/
theorem c1_load_merges (p : Str) (s s' : SettingsState) (fs : FS) (content : Str)
    (hc : fs.contents p = some content)
    (h : loadSettings p s fs = (Except.ok (), s')) :
    s'.currentFilename = p ∧
    ∀ k, mapFind s'.settings k =
      match lastParsed (splitLines content) k with
      | some v => some v
      | none => mapFind s.settings k := by
  simp only [loadSettings, hc] at h
  have hs : (⟨loadLines s.settings (splitLines content), p⟩ : SettingsState) = s' := by
    simpa using congrArg Prod.snd h
  subst hs
  exact ⟨rfl, fun k => mapFind_loadLines _ _ _⟩

/-- Witness for `c1_load_merges` at the counterexample's input, read off at the
prior key `"x"`. -/
theorem c1_load_merges_witness :
    mapFind [(lit "x", lit "1"), (lit "a", lit "2")] (lit "x") = some (lit "1") :=
  (c1_load_merges (lit "f") ⟨[(lit "x", lit "1")], []⟩
    ⟨[(lit "x", lit "1"), (lit "a", lit "2")], lit "f"⟩
    ⟨fun n => if n = lit "f" then some (lit "a=2\n") else none, fun _ => true⟩
    (lit "a=2\n") rfl rfl).2 (lit "x")

/-- C2 counterexample: the mapping `{"k" ↦ ""}` (an entry whose value is the
empty string), written by `saveSettingsAs "p"` and re-loaded into a fresh
store, comes back empty — the written line `"k="` has nothing after the `'='`
and is dropped on load, so the round trip loses the entry. -/
theorem c2_counterexample :
    (saveSettingsAs (lit "p") ⟨[(lit "k", [])], []⟩
        ⟨fun _ => none, fun _ => true⟩).1 = Except.ok () ∧
    (loadSettings (lit "p") SettingsState.init
        (saveSettingsAs (lit "p") ⟨[(lit "k", [])], []⟩
          ⟨fun _ => none, fun _ => true⟩).2.2).2.settings = [] := by
  exact ⟨rfl, rfl⟩

/-- C2 amended: the round trip holds once the values are additionally required
non-empty: for every mapping `M` with unique keys whose keys and values
contain no `'='` and no newline and whose values are all non-empty,
`saveSettingsAs p` followed by `loadSettings p` on a fresh store yields
exactly `M` (and records `p` as the current file). -/
theorem c2_roundtrip (M : List (Str × Str)) (p q : Str) (fs : FS)
    (hnd : (M.map Prod.fst).Nodup)
    (hkeq : ∀ kv ∈ M, '=' ∉ kv.1) (hknl : ∀ kv ∈ M, '\n' ∉ kv.1)
    (hveq : ∀ kv ∈ M, '=' ∉ kv.2) (hvnl : ∀ kv ∈ M, '\n' ∉ kv.2)
    (hvne : ∀ kv ∈ M, kv.2 ≠ [])
    (hw : fs.writable p = true) :
    (saveSettingsAs p ⟨M, q⟩ fs).1 = Except.ok () ∧
    loadSettings p SettingsState.init (saveSettingsAs p ⟨M, q⟩ fs).2.2
      = (Except.ok (), ⟨M, p⟩) := by
  have hcontents : (saveSettingsAs p ⟨M, q⟩ fs).2.2.contents p
      = some (serialize M) := by
    simp [saveSettingsAs, hw]
  refine ⟨by simp [saveSettingsAs, hw], ?_⟩
  have hload : loadSettings p SettingsState.init (saveSettingsAs p ⟨M, q⟩ fs).2.2
      = (Except.ok (), ⟨loadLines [] (splitLines (serialize M)), p⟩) := by
    simp [loadSettings, hcontents, SettingsState.init]
  rw [hload, splitLines_serialize M (fun kv hkv => ⟨hknl kv hkv, hvnl kv hkv⟩),
    loadLines_pairs M [] (fun kv _ => rfl) hnd hkeq hvne]
  simp

/-- Witness for `c2_roundtrip` on the two-entry mapping `{"a" ↦ "1", "b" ↦ "2"}`. -/
theorem c2_roundtrip_witness :
    loadSettings (lit "p") SettingsState.init
        (saveSettingsAs (lit "p") ⟨[(lit "a", lit "1"), (lit "b", lit "2")], []⟩
          ⟨fun _ => none, fun _ => true⟩).2.2
      = (Except.ok (), ⟨[(lit "a", lit "1"), (lit "b", lit "2")], lit "p"⟩) :=
  (c2_roundtrip [(lit "a", lit "1"), (lit "b", lit "2")] (lit "p") []
    ⟨fun _ => none, fun _ => true⟩ (by decide) (by decide) (by decide)
    (by decide) (by decide) (by decide) rfl).2

/-- C3 counterexample: with `"123abc"` stored under `"k"`, `getValueAs<int>`
returns `123` and raises nothing, although `"123abc"` is not a valid base-10
integer — `std::stoi` ignores trailing non-numeric characters. -/
theorem c3_counterexample :
    (getValueAsInt (lit "k") ⟨[(lit "k", lit "123abc")], []⟩).1
      = Except.ok 123 := by
  decide

/-- C3 amended: `getValueAs<int>` applies `std::stoi` to the stored string:
a stored valid base-10 numeral within `int`'s range (optional sign, then
digits, nothing else) is returned as that integer without raising, and a
stored string with no digit at the numeral position (after optional
whitespace and an optional sign) raises `ConversionError`; trailing
non-numeric characters after the digits do not cause a raise, and an
out-of-range numeral also raises. -/
theorem c3_getValueAsInt (s : SettingsState) (k v : Str)
    (h : mapFind s.settings k = some v) :
    (∀ n : Int, validIntString v n → (getValueAsInt k s).1 = Except.ok n) ∧
    (stoiDigits v = [] →
      (getValueAsInt k s).1 = Except.error Err.conversionError) := by
  constructor
  · intro n hn
    simp [getValueAsInt, getValue, h, stoi_of_valid v n hn]
  · intro hd
    simp [getValueAsInt, getValue, h, stoi_of_no_digits v hd]

/-- Witness for `c3_getValueAsInt` with the stored numeral `"42"`. -/
theorem c3_getValueAsInt_witness :
    (getValueAsInt (lit "k") ⟨[(lit "k", lit "42")], []⟩).1 = Except.ok 42 :=
  (c3_getValueAsInt ⟨[(lit "k", lit "42")], []⟩ (lit "k") (lit "42") rfl).1 42
    ⟨lit "42", by decide, by decide, Or.inl ⟨rfl, by decide⟩, by decide, by decide⟩

/-- C4 counterexample: on a fresh store with no prior load, `saveSettingsAs "p"`
succeeds, yet the subsequent parameterless `saveSettings` still raises
`stateError` — `saveSettingsAs` does not establish the current path. -/
theorem c4_counterexample :
    (saveSettingsAs (lit "p") SettingsState.init
        ⟨fun _ => none, fun _ => true⟩).1 = Except.ok () ∧
    Option.map Prod.fst
      (saveSettings
        (saveSettingsAs (lit "p") SettingsState.init
          ⟨fun _ => none, fun _ => true⟩).2.1
        (saveSettingsAs (lit "p") SettingsState.init
          ⟨fun _ => none, fun _ => true⟩).2.2)
      = some (Except.error Err.stateError) := by
  exact ⟨rfl, rfl⟩

/-- C4 amended: `saveSettings` raises `stateError` exactly when
`currentFilename_` is empty (the throw precedes the nested lock, leaving
state and file system untouched; on a non-empty path the call instead
diverges on the re-locked mutex and raises nothing), and `saveSettingsAs`
never writes `currentFilename_`, so only a successful `loadSettings`
establishes the default path — after `saveSettingsAs(p)` on a store with no
prior load, `saveSettings()` still raises `stateError`. -/
theorem c4_save_stateError (s : SettingsState) (fs : FS) :
    (saveSettings s fs = some (Except.error Err.stateError, s, fs)
      ↔ s.currentFilename = []) ∧
    ∀ p, ((saveSettingsAs p s fs).2.1).currentFilename = s.currentFilename := by
  constructor
  · constructor
    · intro h
      by_contra hc
      simp [saveSettings, if_neg hc] at h
    · intro h
      simp [saveSettings, h]
  · intro p
    by_cases hw : fs.writable p <;> simp [saveSettingsAs, hw]

/-- Witness for `c4_save_stateError`: a fresh store's `saveSettings` raises
`stateError`. -/
theorem c4_save_stateError_witness :
    saveSettings SettingsState.init ⟨fun _ => none, fun _ => true⟩
      = some (Except.error Err.stateError, SettingsState.init,
          ⟨fun _ => none, fun _ => true⟩) :=
  (c4_save_stateError SettingsState.init
    ⟨fun _ => none, fun _ => true⟩).1.mpr rfl

/-- C5: line parsing on load — a line `key=value` with `'='`-free key and
non-empty value parses to that pair (the value may itself contain `'='`,
since only the first `'='` splits); a line with no `'='` is dropped; a line
with nothing after the `'='` is dropped; the last occurrence of a duplicate
key wins; and the file `"a=1\nbadline\nb=2=3\n"` loaded into a fresh store
yields exactly `{a ↦ "1", b ↦ "2=3"}`. -/
theorem c5_line_parsing :
    (∀ k v : Str, '=' ∉ k → v ≠ [] → parseLine (k ++ '=' :: v) = some (k, v)) ∧
    (∀ l : Str, '=' ∉ l → parseLine l = none) ∧
    (∀ k : Str, '=' ∉ k → parseLine (k ++ ['=']) = none) ∧
    (∀ (lines : List Str) (l k v : Str), parseLine l = some (k, v) →
      mapFind (loadLines [] (lines ++ [l])) k = some v) ∧
    loadSettings (lit "f") SettingsState.init
        ⟨fun n => if n = lit "f" then some (lit "a=1\nbadline\nb=2=3\n") else none,
         fun _ => true⟩
      = (Except.ok (), ⟨[(lit "a", lit "1"), (lit "b", lit "2=3")], lit "f"⟩) := by
  refine ⟨parseLine_keyval, parseLine_no_eq, parseLine_empty_value, ?_, by decide⟩
  intro lines l k v hp
  rw [loadLines_append]
  simp [loadLines, hp, mapFind_mapInsert]

/-- Witness for `c5_line_parsing`: the line `"b=2=3"` parses to key `"b"`,
value `"2=3"`. -/
theorem c5_line_parsing_witness :
    parseLine (lit "b" ++ '=' :: lit "2=3") = some (lit "b", lit "2=3") :=
  c5_line_parsing.1 (lit "b") (lit "2=3") (by decide) (by decide)

/-- C6: boolean coercion is total — for every stored string it returns
whether the string equals `"true"` or `"1"`, never an error; and
`setValueAs<bool>` of `true`/`false` reads back as `true`/`false`. -/
theorem c6_bool_coercion :
    (∀ (s : SettingsState) (k v : Str), mapFind s.settings k = some v →
      (getValueAsBool k s).1 = Except.ok (v == lit "true" || v == lit "1")) ∧
    (∀ (s : SettingsState) (k : Str),
      (getValueAsBool k (setValueAsBool k true s)).1 = Except.ok true) ∧
    (∀ (s : SettingsState) (k : Str),
      (getValueAsBool k (setValueAsBool k false s)).1 = Except.ok false) := by
  refine ⟨?_, ?_, ?_⟩
  · intro s k v h
    simp [getValueAsBool, getValue, h]
  · intro s k
    have h : mapFind (setValueAsBool k true s).settings k = some (lit "true") := by
      simp [setValueAsBool, setValue, mapFind_mapInsert]
    simp [getValueAsBool, getValue, h]
  · intro s k
    have h : mapFind (setValueAsBool k false s).settings k = some (lit "false") := by
      simp [setValueAsBool, setValue, mapFind_mapInsert]
    simp only [getValueAsBool, getValue, h]
    decide

/-- Witness for `c6_bool_coercion`: the unrecognized stored string `"yes"`
coerces to `false` without an error. -/
theorem c6_bool_coercion_witness :
    (getValueAsBool (lit "k") ⟨[(lit "k", lit "yes")], []⟩).1 = Except.ok false :=
  c6_bool_coercion.1 ⟨[(lit "k", lit "yes")], []⟩ (lit "k") (lit "yes") rfl

/-- C7: error atomicity — a `loadSettings` that fails leaves the state (both
mapping and current path) exactly as it was; `getValue` and both `getValueAs`
coercions never change the state at all (so in particular not on failure);
a `saveSettings` that raises an error (the `stateError` throw, which runs
before the nested lock) leaves both the state and the file system untouched;
and so does a failing `saveSettingsAs`. -/
theorem c7_error_atomicity :
    (∀ (p : Str) (s : SettingsState) (fs : FS) (e : Err),
      (loadSettings p s fs).1 = Except.error e → (loadSettings p s fs).2 = s) ∧
    (∀ (k : Str) (s : SettingsState), (getValue k s).2 = s) ∧
    (∀ (k : Str) (s : SettingsState), (getValueAsInt k s).2 = s) ∧
    (∀ (k : Str) (s : SettingsState), (getValueAsBool k s).2 = s) ∧
    (∀ (s : SettingsState) (fs : FS) (e : Err)
        (r : Except Err Unit × SettingsState × FS),
      saveSettings s fs = some r → r.1 = Except.error e →
        r.2.1 = s ∧ r.2.2 = fs) ∧
    (∀ (p : Str) (s : SettingsState) (fs : FS) (e : Err),
      (saveSettingsAs p s fs).1 = Except.error e →
        (saveSettingsAs p s fs).2.1 = s ∧ (saveSettingsAs p s fs).2.2 = fs) := by
  refine ⟨?_, fun k s => rfl, ?_, ?_, ?_, ?_⟩
  · intro p s fs e h
    cases hc : fs.contents p with
    | none => simp [loadSettings, hc]
    | some content => simp [loadSettings, hc] at h
  · intro k s
    simp only [getValueAsInt, getValue]
    cases mapFind s.settings k <;> simp
  · intro k s
    simp only [getValueAsBool, getValue]
    cases mapFind s.settings k <;> simp
  · intro s fs e r hr he
    by_cases hc : s.currentFilename = []
    · simp only [saveSettings, if_pos hc, Option.some.injEq] at hr
      subst hr
      exact ⟨rfl, rfl⟩
    · simp [saveSettings, hc] at hr
  · intro p s fs e h
    by_cases hw : fs.writable p
    · simp [saveSettingsAs, hw] at h
    · simp [saveSettingsAs, hw]

/-- Witness for `c7_error_atomicity`: a load from a file system with no
files fails and leaves the prior state intact. -/
theorem c7_error_atomicity_witness :
    (loadSettings (lit "f") ⟨[(lit "x", lit "1")], lit "g"⟩
        ⟨fun _ => none, fun _ => true⟩).2 = ⟨[(lit "x", lit "1")], lit "g"⟩ :=
  c7_error_atomicity.1 (lit "f") ⟨[(lit "x", lit "1")], lit "g"⟩
    ⟨fun _ => none, fun _ => true⟩ Err.ioError rfl

/-- C8: the frame halves of the claim hold — `saveSettingsAs` never changes
the in-memory state (mapping or remembered path), and after a load of `q` a
later `saveSettingsAs p` leaves the remembered path at `q`.  The claim's
consequence, that a subsequent parameterless `saveSettings` then writes to
that remembered path, is the intent of the source's own documentation
(`@brief Saves the current settings to the last loaded file`) but is
unrealizable: on every non-empty `currentFilename_` the source re-locks the
non-recursive `mutex_` it already holds and self-deadlocks before the
`std::ofstream` opens, so `saveSettings` never returns and performs no
write (conjunct 3); conjunct 4 evaluates that divergence at a concrete
failing input, the state a load of `"f"` leaves behind. -/
theorem c8_saveAs_frame :
    (∀ (p : Str) (s : SettingsState) (fs : FS), (saveSettingsAs p s fs).2.1 = s) ∧
    (∀ (q p : Str) (s s₁ : SettingsState) (fs fs' : FS),
      loadSettings q s fs = (Except.ok (), s₁) →
        ((saveSettingsAs p s₁ fs').2.1).currentFilename = q) ∧
    (∀ (s : SettingsState) (fs : FS), s.currentFilename ≠ [] →
      saveSettings s fs = none) ∧
    saveSettings ⟨[(lit "a", lit "1")], lit "f"⟩ ⟨fun _ => none, fun _ => true⟩
      = none := by
  refine ⟨?_, ?_, ?_, rfl⟩
  · intro p s fs
    by_cases hw : fs.writable p <;> simp [saveSettingsAs, hw]
  · intro q p s s₁ fs fs' h
    have hs₁ : s₁.currentFilename = q := by
      cases hc : fs.contents q with
      | none => simp [loadSettings, hc] at h
      | some content =>
        have := congrArg Prod.snd h
        simp only [loadSettings, hc] at this
        exact congrArg SettingsState.currentFilename this.symm ▸ rfl
    by_cases hw : fs'.writable p <;> simp [saveSettingsAs, hw, hs₁]
  · intro s fs hc
    simp [saveSettings, hc]

/-- Witness for `c8_saveAs_frame`: load `"f"`, then `saveSettingsAs "p"` —
the remembered path is still `"f"`. -/
theorem c8_saveAs_frame_witness :
    ((saveSettingsAs (lit "p") ⟨[(lit "a", lit "1")], lit "f"⟩
        ⟨fun _ => none, fun _ => true⟩).2.1).currentFilename = lit "f" :=
  c8_saveAs_frame.2.1 (lit "f") (lit "p") SettingsState.init
    ⟨[(lit "a", lit "1")], lit "f"⟩
    ⟨fun n => if n = lit "f" then some (lit "a=1\n") else none, fun _ => true⟩
    ⟨fun _ => none, fun _ => true⟩ (by decide)

/-- C9: `setValue k v` followed by `getValue k` returns `v`; `setValue`
inserts when the key is absent and overwrites when present, leaves every
other entry unchanged, and leaves the current path unchanged (its return
type is total: no error path exists in the source). -/
theorem c9_setValue (k v : Str) (s : SettingsState) (hk : k ≠ []) :
    (getValue k (setValue k v s)).1 = Except.ok v ∧
    (∀ k', mapFind (setValue k v s).settings k'
      = if k = k' then some v else mapFind s.settings k') ∧
    (setValue k v s).currentFilename = s.currentFilename := by
  refine ⟨?_, ?_, rfl⟩
  · simp [getValue, setValue, mapFind_mapInsert]
  · intro k'
    simp [setValue, mapFind_mapInsert]

/-- Witness for `c9_setValue` at key `"a"`, value `"1"`. -/
theorem c9_setValue_witness :
    (getValue (lit "a") (setValue (lit "a") (lit "1") SettingsState.init)).1
      = Except.ok (lit "1") :=
  (c9_setValue (lit "a") (lit "1") SettingsState.init (by decide)).1

/-- C10: the empty string is a legal key everywhere — `setValue "" v` stores
an entry that `getValue ""` retrieves, a line beginning with `'='` parses to
the empty key with the text after the `'='` as value, and loading a file
`"=v\n"` yields exactly the entry `"" ↦ "v"`. -/
theorem c10_empty_key :
    (∀ (v : Str) (s : SettingsState),
      (getValue [] (setValue [] v s)).1 = Except.ok v) ∧
    (∀ v : Str, v ≠ [] → parseLine ('=' :: v) = some ([], v)) ∧
    loadSettings (lit "f") SettingsState.init
        ⟨fun n => if n = lit "f" then some (lit "=v\n") else none, fun _ => true⟩
      = (Except.ok (), ⟨[([], lit "v")], lit "f"⟩) := by
  refine ⟨?_, ?_, by decide⟩
  · intro v s
    simp [getValue, setValue, mapFind_mapInsert]
  · intro v hv
    simpa using parseLine_keyval [] v (by simp) hv

/-- Witness for `c10_empty_key`: the line `"=v"` yields the empty key. -/
theorem c10_empty_key_witness :
    parseLine ('=' :: lit "v") = some ([], lit "v") :=
  c10_empty_key.2.1 (lit "v") (by decide)

